import Mathlib

/-!
Verification of `src/dashboard.py`: a single-producer/single-consumer event
relay.  The payload builder (`accumulate_event` with `prepare_image`) turns a
detection event into a transmission payload and enqueues it; the delivery
worker (`push_event`) drains the FIFO queue and posts each payload over HTTP
until it dequeues the `None` stop sentinel; `parse_json_or_html` interprets
HTTP response bodies.

External capabilities (OpenCV encoding/resizing, the file system, the HTTP
transport, the clock) are passed in as explicit function parameters; the
Python standard library Base64 codec is modelled concretely so that the
round-trip validation step is executable.  Exceptions are modelled with
`Except`, the multiprocessing queue as a list of `Option Payload` items in
FIFO order (with `none` as the stop sentinel), and the worker loop as a
structurally recursive function over the sequence of dequeued items.
-/

namespace Dashboard

/-! ### Base64 model (Python `base64.b64encode` / `b64decode(validate=True)`) -/

/-- The standard Base64 alphabet, in code order. -/
def b64chars : List Char :=
  "ABCDEFGHIJKLMNOPQRSTUVWXYZabcdefghijklmnopqrstuvwxyz0123456789+/".toList

/-- Character for a 6-bit group. -/
def b64char (n : Nat) : Char := b64chars.getD n '='

/-- Base64 encoding of a byte list (bytes are taken mod 256), with `=` padding,
as produced by Python `base64.b64encode(...).decode()`. -/
def b64encodeBytes : List Nat → List Char
  | [] => []
  | [a] =>
    let a := a % 256
    [b64char (a / 4), b64char (a % 4 * 16), '=', '=']
  | [a, b] =>
    let a := a % 256
    let b := b % 256
    [b64char (a / 4), b64char (a % 4 * 16 + b / 16), b64char (b % 16 * 4), '=']
  | a :: b :: c :: rest =>
    let a := a % 256
    let b := b % 256
    let c := c % 256
    b64char (a / 4) :: b64char (a % 4 * 16 + b / 16) ::
      b64char (b % 16 * 4 + c / 64) :: b64char (c % 64) :: b64encodeBytes rest

/-- `base64.b64encode(buffer).decode()`. -/
def b64encode (buffer : List Nat) : String := String.mk (b64encodeBytes buffer)

/-- Membership in the Base64 alphabet (excluding the padding character). -/
def is_b64_alphabet (c : Char) : Bool := b64chars.contains c

/-- Success of Python `base64.b64decode(s, validate=True)`: the length is a
multiple of four, at most two trailing `=` padding characters, and every
non-padding character is in the alphabet. -/
def b64validate (s : String) : Bool :=
  let cs := s.data
  let pad := (cs.reverse.takeWhile (fun c => c == '=')).length
  let body := cs.take (cs.length - pad)
  decide (cs.length % 4 = 0) && decide (pad ≤ 2) && body.all is_b64_alphabet

/-! ### Payload builder (`prepare_image`, `accumulate_event`) -/

/-- An in-memory raster frame, abstract to the model: `prepare_image` only
passes it to the external OpenCV capability. -/
abbrev Frame := List Nat

/-- The external OpenCV capability used by `prepare_image`: `cv2.resize` and
`cv2.imencode('.png', frame, [IMWRITE_PNG_COMPRESSION, quality])`, the latter
returning `none` when `success` is false. -/
structure Cv2 where
  resize : Frame → Nat → Nat → Frame
  imencode : Nat → Frame → Option (List Nat)

/-- `prepare_image(frame, live_stream, encode_quality)` from the source, over
the external capabilities `cv` (OpenCV) and `fileWrite` (the debug write of
the encoded string to `encoded_image.txt`).  Faithful to the source control
flow: resize when `live_stream`; PNG-encode (a failed encode raises
`ValueError("Image encoding failed.")`); Base64-encode; validate by decoding
back; then perform the debug file write; all of this inside one `try` whose
`except` logs and re-raises, so a failure anywhere — including the debug
write — propagates to the caller. -/
def prepare_image (cv : Cv2) (fileWrite : String → Except String Unit)
    (frame : Frame) (live_stream : Bool) (encode_quality : Nat) :
    Except String String :=
  match cv.imencode encode_quality
      (if live_stream then cv.resize frame 960 540 else frame) with
  | none => Except.error "Image encoding failed."
  | some buffer =>
    if b64validate (b64encode buffer) then
      match fileWrite (b64encode buffer) with
      | Except.error e => Except.error e
      | Except.ok _ => Except.ok (b64encode buffer)
    else Except.error "Invalid base64-encoded string"

/-- One entry of the payload's `detections` list. -/
structure Detection where
  type : Int
  details : String
deriving DecidableEq

/-- The transmission payload dictionary built by `accumulate_event`. -/
structure Payload where
  location_id : Int
  date : String
  type : Int
  detections : List Detection
  image : String
deriving DecidableEq

/-- The fixed `detection_types_mapping_dict` of the source, as `dict.get`. -/
def detection_types_mapping_dict (s : String) : Option Int :=
  if s = "No_Gloves" then some 0
  else if s = "No_Sleeves" then some 1
  else if s = "No_Helmet" then some 2
  else none

/-- `detection.replace("_", " ").lower()`: underscores become spaces and the
(ASCII) letters are lowercased.  The single-character replacement commutes
with per-character lowering, so this is the character-wise map. -/
def details_of (s : String) : String :=
  String.mk (s.data.map (fun c => if c = '_' then ' ' else c.toLower))

/-- Model of Python `set(detection_types)`: one occurrence per distinct
element.  Set iteration order is unspecified in Python; this model keeps the
position of the last occurrence, and no claim depends on the order. -/
def set_of_list : List String → List String
  | [] => []
  | x :: xs => if x ∈ xs then set_of_list xs else x :: set_of_list xs

/-- The loop body of `accumulate_event`: a recognized detection label yields
`{"type": code, "details": label lowercased with underscores as spaces}`;
an unknown label is skipped (after a warning log). -/
def entry_of (detection : String) : Option Detection :=
  match detection_types_mapping_dict detection with
  | none => none
  | some detection_id => some ⟨detection_id, details_of detection⟩

/-- Python `max(l, default=d)`: `d` on the empty list, the maximum element
otherwise. -/
def max_default (d : Int) : List Int → Int
  | [] => d
  | x :: xs => xs.foldl max x

/-- `accumulate_event(location_id, frame, detection_types, results_queue)`
from the source, over the explicit clock value `now` (for
`datetime.now().strftime(...)`).  The queue is the list of already-enqueued
payloads; the result is the outcome (an exception from `prepare_image`
propagates) paired with the queue after the call: `results_queue.put(payload)`
appends only on success, since the payload dictionary construction raises
before `put` when image encoding fails. -/
def accumulate_event (cv : Cv2) (fileWrite : String → Except String Unit)
    (now : String) (location_id : Int) (frame : Frame)
    (detection_types : List String) (results_queue : List Payload) :
    Except String Unit × List Payload :=
  let location_id := if location_id = 0 then 1 else location_id
  let date := now
  let unique_detection_types := set_of_list detection_types
  let detections_list := unique_detection_types.filterMap entry_of
  match prepare_image cv fileWrite frame false 50 with
  | Except.error e => (Except.error e, results_queue)
  | Except.ok img =>
    let payload : Payload :=
      { location_id := location_id
        date := date
        type := max_default 1 (detections_list.map Detection.type)
        detections := detections_list
        image := img }
    (Except.ok (), results_queue ++ [payload])

/-! ### Response interpreter (`parse_json_or_html`) -/

/-- JSON values, as returned by `response.json()`. -/
inductive Json where
  | null
  | bool (b : Bool)
  | num (n : Int)
  | str (s : String)
  | arr (elems : List Json)
  | obj (fields : List (String × Json))

/-- What BeautifulSoup extracts from the response text: the title element's
string when a title element is present, and the `prettify()` rendering. -/
structure HtmlDoc where
  title : Option String
  pretty : String

/-- An HTTP response as seen by the worker: the status code, the result of
`response.json()` (`Except.error` models the `json.JSONDecodeError` raised on
a non-JSON body), and the parsed view of `response.text`. -/
structure HttpResponse where
  status : Nat
  jsonBody : Except String Json
  htmlBody : HtmlDoc

/-- The structured result of `parse_json_or_html`: either the parsed JSON
structure or the `{"html": {"title": ..., "content": ...}}` fallback. -/
inductive ParseResult where
  | json (j : Json)
  | html (title : String) (content : String)

/-- `parse_json_or_html(response)` from the source: try `response.json()`;
on `json.JSONDecodeError`, log a warning and fall back to the HTML view with
`soup.title.string if soup.title else "No Title"` and `soup.prettify()`.
Total by construction — the only failure the body can raise is the JSON
decode error, which the `except` arm converts into the fallback result. -/
def parse_json_or_html (response : HttpResponse) : ParseResult :=
  match response.jsonBody with
  | Except.ok j => ParseResult.json j
  | Except.error _ =>
    let title :=
      match response.htmlBody.title with
      | some t => t
      | none => "No Title"
    ParseResult.html title response.htmlBody.pretty

/-! ### Delivery worker (`push_event`) -/

/-- `response.raise_for_status()`: raises `requests.exceptions.HTTPError`
exactly when the status code is in [400, 600). -/
def raise_for_status (r : HttpResponse) : Except String Unit :=
  if 400 ≤ r.status ∧ r.status < 600 then Except.error "HTTPError"
  else Except.ok ()

/-- Outcome of one loop iteration's HTTP submission: a transport-level
`requests` error from `session.post`, an HTTP error from
`raise_for_status`, or success with the logged parse of the response. -/
inductive DeliveryOutcome where
  | transportError (e : String)
  | httpError (status : Nat)
  | success (status : Nat) (parsed : ParseResult)

/-- Whether the outcome is one of the two failure cases caught by the
`except requests.exceptions.RequestException` arm of the loop. -/
def DeliveryOutcome.isFailure : DeliveryOutcome → Bool
  | .transportError _ => true
  | .httpError _ => true
  | .success _ _ => false

/-- The body of one `push_event` iteration for a non-sentinel item: POST the
payload through the external transport `post`, raise for status, and on
success parse the response for the debug log. -/
def deliver (post : Payload → Except String HttpResponse) (event : Payload) :
    DeliveryOutcome :=
  match post event with
  | Except.error e => DeliveryOutcome.transportError e
  | Except.ok response =>
    match raise_for_status response with
    | Except.error _ => DeliveryOutcome.httpError response.status
    | Except.ok _ =>
      DeliveryOutcome.success response.status (parse_json_or_html response)

/-- `push_event(session, event_queue)` from the source, over the FIFO
sequence of items the queue yields in this run (`none` is the `None` stop
sentinel).  The result is the trace of HTTP submissions, in order, each with
its outcome: the loop breaks at the sentinel without touching later items,
and on a `RequestException` it logs and `continue`s, so every non-sentinel
item before the first sentinel is submitted exactly once.  An empty suffix
means the run is still blocked in `event_queue.get()` with no further
submissions yet. -/
def push_event (post : Payload → Except String HttpResponse) :
    List (Option Payload) → List (Payload × DeliveryOutcome)
  | [] => []
  | none :: _ => []
  | some event :: rest => (event, deliver post event) :: push_event post rest

/-! ### Concrete sample values used by the witnesses -/

/-- An OpenCV capability whose PNG encoder succeeds, returning the frame
bytes themselves as the buffer. -/
def goodCv : Cv2 where
  resize := fun f _ _ => f
  imencode := fun _ f => some f

/-- An OpenCV capability whose PNG encoder reports failure. -/
def badCv : Cv2 where
  resize := fun f _ _ => f
  imencode := fun _ _ => none

/-- A debug file write that succeeds. -/
def okWrite : String → Except String Unit := fun _ => Except.ok ()

/-- A debug file write that raises (e.g. `OSError` on a full disk). -/
def badWrite : String → Except String Unit := fun _ => Except.error "disk full"

/-- A transport that always raises a connection error. -/
def failPost : Payload → Except String HttpResponse :=
  fun _ => Except.error "connection error"

/-- A sample payload. -/
def pA : Payload :=
  { location_id := 1, date := "2024-01-01 00:00:00", type := 2
    detections := [⟨2, "no helmet"⟩], image := "AA==" }

/-- A second sample payload. -/
def pB : Payload :=
  { location_id := 3, date := "2024-01-01 00:00:01", type := 1
    detections := [], image := "AA==" }

/-- The payload built from location 0, frame `[0]`, and no detection labels. -/
def pLoc0 : Payload :=
  { location_id := 1, date := "d", type := 1, detections := [], image := "AA==" }

/-- The payload built from location 7, frame `[0]`, and labels
`["No_Gloves", "No_Helmet"]` (codes {0, 2}). -/
def pC5 : Payload :=
  { location_id := 7, date := "d", type := 2
    detections := [⟨0, "no gloves"⟩, ⟨2, "no helmet"⟩], image := "AA==" }

/-- The payload built from location 7, frame `[0]`, and labels
`["No_Helmet", "No_Helmet", "Unknown_Thing"]`. -/
def pC7 : Payload :=
  { location_id := 7, date := "d", type := 2
    detections := [⟨2, "no helmet"⟩], image := "AA==" }

/-- The payload built from location 2, frame `[0]`, and label `No_Sleeves`. -/
def pC9 : Payload :=
  { location_id := 2, date := "d", type := 1
    detections := [⟨1, "no sleeves"⟩], image := "AA==" }

/-- The payload built from location -5, frame `[0]`, and no labels. -/
def pNeg : Payload :=
  { location_id := -5, date := "d", type := 1, detections := [], image := "AA==" }

/-- A response whose body parses as JSON. -/
def respJson : HttpResponse :=
  { status := 200, jsonBody := Except.ok (Json.str "ok")
    htmlBody := { title := none, pretty := "" } }

/-- A response whose body is an HTML page with a title element. -/
def respHtml : HttpResponse :=
  { status := 200, jsonBody := Except.error "Expecting value"
    htmlBody := { title := some "Error", pretty := "<html/>" } }

/-! ### Helper lemmas -/

theorem mem_set_of_list {a : String} : ∀ {l : List String}, a ∈ set_of_list l ↔ a ∈ l := by
  intro l
  induction l with
  | nil => simp [set_of_list]
  | cons x xs ih =>
    by_cases hx : x ∈ xs
    · simp only [set_of_list, if_pos hx, List.mem_cons, ih]
      constructor
      · exact Or.inr
      · rintro (rfl | h)
        · exact hx
        · exact h
    · simp [set_of_list, if_neg hx, ih]

theorem nodup_set_of_list : ∀ (l : List String), (set_of_list l).Nodup := by
  intro l
  induction l with
  | nil => simp [set_of_list]
  | cons x xs ih =>
    by_cases hx : x ∈ xs
    · simpa [set_of_list, if_pos hx] using ih
    · simp only [set_of_list, if_neg hx]
      exact List.Nodup.cons (fun h => hx (mem_set_of_list.mp h)) ih

theorem mapping_eq_some {s : String} {c : Int} :
    detection_types_mapping_dict s = some c ↔
      (s = "No_Gloves" ∧ c = 0) ∨ (s = "No_Sleeves" ∧ c = 1) ∨
        (s = "No_Helmet" ∧ c = 2) := by
  unfold detection_types_mapping_dict
  split_ifs with h1 h2 h3 <;> simp_all <;> omega

theorem entry_of_eq_some {s : String} {d : Detection} :
    entry_of s = some d ↔
      detection_types_mapping_dict s = some d.type ∧ d.details = details_of s := by
  unfold entry_of
  cases h : detection_types_mapping_dict s with
  | none => simp
  | some c =>
    constructor
    · rintro hd
      cases hd
      exact ⟨rfl, rfl⟩
    · rintro ⟨hc, hdet⟩
      cases hc
      cases d
      simp_all

theorem le_foldl_max_init : ∀ (l : List Int) (a : Int), a ≤ l.foldl max a := by
  intro l
  induction l with
  | nil => intro a; exact le_refl a
  | cons y ys ih =>
    intro a
    exact le_trans (le_max_left a y) (ih (max a y))

theorem le_foldl_max_of_mem : ∀ (l : List Int) (a x : Int), x ∈ l → x ≤ l.foldl max a := by
  intro l
  induction l with
  | nil => intro a x hx; cases hx
  | cons y ys ih =>
    intro a x hx
    rcases List.mem_cons.mp hx with rfl | hmem
    · exact le_trans (le_max_right a x) (le_foldl_max_init ys (max a x))
    · exact ih (max a y) x hmem

theorem foldl_max_eq_or_mem : ∀ (l : List Int) (a : Int),
    l.foldl max a = a ∨ l.foldl max a ∈ l := by
  intro l
  induction l with
  | nil => intro a; exact Or.inl rfl
  | cons y ys ih =>
    intro a
    rcases ih (max a y) with h | h
    · rw [List.foldl_cons, h]
      rcases max_choice a y with hm | hm
      · exact Or.inl hm
      · exact Or.inr (by rw [hm]; exact List.mem_cons_self y ys)
    · exact Or.inr (List.mem_cons_of_mem y (by simpa using h))

theorem le_max_default {l : List Int} {x : Int} (hx : x ∈ l) (d : Int) :
    x ≤ max_default d l := by
  cases l with
  | nil => cases hx
  | cons y ys =>
    rcases List.mem_cons.mp hx with rfl | hmem
    · exact le_foldl_max_init ys x
    · exact le_foldl_max_of_mem ys y x hmem

theorem max_default_mem {l : List Int} (h : l ≠ []) (d : Int) :
    max_default d l ∈ l := by
  cases l with
  | nil => exact absurd rfl h
  | cons y ys =>
    rcases foldl_max_eq_or_mem ys y with heq | hmem
    · rw [max_default, heq]; exact List.mem_cons_self y ys
    · exact List.mem_cons_of_mem y hmem

theorem max_default_eq_or_mem (d : Int) (l : List Int) :
    max_default d l = d ∨ max_default d l ∈ l := by
  cases l with
  | nil => exact Or.inl rfl
  | cons y ys =>
    rcases foldl_max_eq_or_mem ys y with heq | hmem
    · exact Or.inr (by rw [max_default, heq]; exact List.mem_cons_self y ys)
    · exact Or.inr (List.mem_cons_of_mem y hmem)

theorem count_filterMap_eq_one {α β : Type} [DecidableEq β] (f : α → Option β) :
    ∀ (l : List α), l.Nodup → ∀ (a : α) (b : β), a ∈ l → f a = some b →
      (∀ x ∈ l, f x = some b → x = a) → (l.filterMap f).count b = 1 := by
  intro l
  induction l with
  | nil => intro _ a b ha; cases ha
  | cons y ys ih =>
    intro hnd a b ha hfa huniq
    have hnd' : ys.Nodup := (List.nodup_cons.mp hnd).2
    have hy : y ∉ ys := (List.nodup_cons.mp hnd).1
    rcases List.mem_cons.mp ha with rfl | hmem
    · rw [List.filterMap_cons_some hfa]
      have hzero : b ∉ ys.filterMap f := by
        intro hb
        rcases List.mem_filterMap.mp hb with ⟨x, hxmem, hxb⟩
        have hxa : x = a := huniq x (List.mem_cons_of_mem a hxmem) hxb
        exact hy (hxa ▸ hxmem)
      rw [List.count_cons_self, List.count_eq_zero.mpr hzero]
    · have hfy : f y ≠ some b := by
        intro hyb
        have hya : y = a := huniq y (List.mem_cons_self y ys) hyb
        exact hy (hya ▸ hmem)
      have ihred := ih hnd' a b hmem hfa
        (fun x hx hxb => huniq x (List.mem_cons_of_mem y hx) hxb)
      cases hfyv : f y with
      | none => rw [List.filterMap_cons_none hfyv]; exact ihred
      | some b' =>
        have hbb' : b' ≠ b := fun h => hfy (h ▸ hfyv)
        rw [List.filterMap_cons_some hfyv, List.count_cons_of_ne (Ne.symm hbb')]
        exact ihred

theorem prepare_image_ok_validate {cv : Cv2} {fw : String → Except String Unit}
    {frame : Frame} {ls : Bool} {q : Nat} {img : String}
    (h : prepare_image cv fw frame ls q = Except.ok img) :
    b64validate img = true := by
  unfold prepare_image at h
  cases henc : cv.imencode q (if ls then cv.resize frame 960 540 else frame) with
  | none => rw [henc] at h; cases h
  | some buffer =>
    rw [henc] at h
    by_cases hval : b64validate (b64encode buffer) = true
    · simp only [hval, if_true] at h
      cases hw : fw (b64encode buffer) with
      | error e => rw [hw] at h; cases h
      | ok u =>
        rw [hw] at h
        cases h
        exact hval
    · simp only [hval, Bool.false_eq_true, if_false] at h
      cases h

/-- The payload `accumulate_event` builds from its inputs and the encoded
image, exactly as in the source. -/
def built_payload (now : String) (location_id : Int)
    (detection_types : List String) (img : String) : Payload :=
  { location_id := if location_id = 0 then 1 else location_id
    date := now
    type := max_default 1
      (((set_of_list detection_types).filterMap entry_of).map Detection.type)
    detections := (set_of_list detection_types).filterMap entry_of
    image := img }

theorem accumulate_event_eq (cv : Cv2) (fw : String → Except String Unit)
    (now : String) (loc : Int) (frame : Frame) (dts : List String)
    (queue : List Payload) :
    accumulate_event cv fw now loc frame dts queue =
      match prepare_image cv fw frame false 50 with
      | Except.error e => (Except.error e, queue)
      | Except.ok img => (Except.ok (), queue ++ [built_payload now loc dts img]) := by
  unfold accumulate_event built_payload
  cases prepare_image cv fw frame false 50 <;> rfl

theorem accumulate_event_ok {cv : Cv2} {fw : String → Except String Unit}
    {now : String} {loc : Int} {frame : Frame} {dts : List String}
    {queue q' : List Payload}
    (h : accumulate_event cv fw now loc frame dts queue = (Except.ok (), q')) :
    ∃ img, prepare_image cv fw frame false 50 = Except.ok img ∧
      q' = queue ++ [built_payload now loc dts img] := by
  rw [accumulate_event_eq] at h
  cases hp : prepare_image cv fw frame false 50 with
  | error e => rw [hp] at h; cases h
  | ok img =>
    rw [hp] at h
    exact ⟨img, rfl, (Prod.mk.injEq _ _ _ _ ▸ h).2.symm⟩

/-! ### Claim theorems -/

/-- Claim C1: in every run of the delivery worker loop over the FIFO queue,
once the stop sentinel is dequeued the loop terminates and issues no further
HTTP requests: the trace of submissions is exactly the payloads enqueued
before the sentinel, in FIFO order, and no item enqueued after the sentinel
is ever submitted in that run.  (Termination is inherent: the trace is a
finite list ending at the sentinel.) -/
theorem push_event_stop_semantics
    (post : Payload → Except String HttpResponse)
    (before : List Payload) (after : List (Option Payload)) :
    push_event post (before.map some ++ none :: after) =
      before.map (fun p => (p, deliver post p)) ∧
    ∀ x ∈ push_event post (before.map some ++ none :: after), x.1 ∈ before := by
  have key : ∀ (l : List Payload),
      push_event post (l.map some ++ none :: after) =
        l.map (fun p => (p, deliver post p)) := by
    intro l
    induction l with
    | nil => rfl
    | cons p rest ih =>
      simp only [List.map_cons, List.cons_append, push_event, List.append_eq, ih]
  refine ⟨key before, ?_⟩
  intro x hx
  rw [key before] at hx
  rcases List.mem_map.mp hx with ⟨p, hp, hxp⟩
  cases hxp
  exact hp

/-- Witness for C1: a run whose queue holds one payload, the sentinel, and a
payload enqueued after the sentinel: only the first payload is submitted. -/
theorem push_event_stop_semantics_witness :
    push_event failPost ([pA].map some ++ none :: [some pB]) =
      [pA].map (fun p => (p, deliver failPost p)) ∧
    ∀ x ∈ push_event failPost ([pA].map some ++ none :: [some pB]), x.1 ∈ [pA] :=
  push_event_stop_semantics failPost [pA] [some pB]

/-- Claim C2: when the HTTP submission of a payload fails (transport error or
error status), the worker continues with the next queue item: the trace shows
the failed payload submitted exactly once followed by the submission of the
next payload and the unchanged processing of the rest — no requeue, no retry,
no loop exit. -/
theorem push_event_failure_isolation
    (post : Payload → Except String HttpResponse) (p q : Payload)
    (rest : List (Option Payload))
    (h : (deliver post p).isFailure = true) :
    push_event post (some p :: some q :: rest) =
      (p, deliver post p) :: (q, deliver post q) :: push_event post rest ∧
    ∃ out, (q, out) ∈ push_event post (some p :: some q :: rest) :=
  ⟨rfl, ⟨deliver post q, List.mem_cons_of_mem _ (List.mem_cons_self _ _)⟩⟩

/-- Witness for C2: a transport that raises a connection error on every POST;
the first submission fails and the second payload is still processed. -/
theorem push_event_failure_isolation_witness :
    push_event failPost [some pA, some pB] =
      (pA, deliver failPost pA) :: (pB, deliver failPost pB) ::
        push_event failPost [] :=
  (push_event_failure_isolation failPost pA pB [] rfl).1

/-- Claim C3 is refuted by the code: the debug file write sits inside the
`try` block of `prepare_image` before the `return`, and the `except` arm
re-raises, so on a frame whose encoding succeeds and validates, a failing
write makes the operation raise instead of returning the Base64 string.  On
frame `[0]` the encode succeeds and validates (the successful-write run
returns the Base64 string `"AA=="`), yet the same run with a failing write
returns the write's error. -/
theorem prepare_image_debug_write_not_isolated :
    prepare_image goodCv okWrite [0] false 50 = Except.ok "AA==" ∧
    prepare_image goodCv badWrite [0] false 50 = Except.error "disk full" :=
  ⟨rfl, rfl⟩

/-- Claim C4: if image encoding fails, `accumulate_event` propagates the
error to the caller and leaves the queue unchanged; and a payload is enqueued
only when it is fully populated with a successfully encoded, round-trip
validated image. -/
theorem accumulate_event_encoding_failure (cv : Cv2)
    (fw : String → Except String Unit) (now : String) (loc : Int)
    (frame : Frame) (dts : List String) (queue : List Payload) :
    (∀ e, prepare_image cv fw frame false 50 = Except.error e →
      accumulate_event cv fw now loc frame dts queue = (Except.error e, queue)) ∧
    (∀ q', accumulate_event cv fw now loc frame dts queue = (Except.ok (), q') →
      ∃ p, q' = queue ++ [p] ∧
        prepare_image cv fw frame false 50 = Except.ok p.image ∧
        b64validate p.image = true) := by
  constructor
  · intro e he
    rw [accumulate_event_eq, he]
  · intro q' h
    rcases accumulate_event_ok h with ⟨img, hok, hq⟩
    exact ⟨built_payload now loc dts img, hq, hok, prepare_image_ok_validate hok⟩

/-- Witness for C4: with a PNG encoder that reports failure, the error
propagates and the (empty) queue is unchanged. -/
theorem accumulate_event_encoding_failure_witness :
    accumulate_event badCv okWrite "2024-01-01 00:00:00" 5 [0] ["No_Helmet"] [] =
      (Except.error "Image encoding failed.", []) :=
  (accumulate_event_encoding_failure badCv okWrite "2024-01-01 00:00:00" 5 [0]
    ["No_Helmet"] []).1 "Image encoding failed." rfl

/-- Claim C8: `parse_json_or_html` is total (it never raises — the only
failure its body can raise is the JSON decode error, which the `except` arm
converts into the fallback) and returns the parsed JSON structure when the
body parses as JSON, and otherwise the fallback carrying the markup title —
or the placeholder "No Title" when no title element is present — and the
pretty-printed rendering. -/
theorem parse_json_or_html_duality (r : HttpResponse) :
    (∀ j, r.jsonBody = Except.ok j → parse_json_or_html r = ParseResult.json j) ∧
    (∀ e, r.jsonBody = Except.error e →
      parse_json_or_html r =
        ParseResult.html (r.htmlBody.title.getD "No Title") r.htmlBody.pretty) := by
  constructor
  · intro j hj
    unfold parse_json_or_html
    rw [hj]
  · intro e he
    unfold parse_json_or_html
    rw [he]
    cases htt : r.htmlBody.title <;> rfl

/-- Witness for C8: a JSON body yields the parsed structure; an HTML body
with a title element yields the title/content fallback. -/
theorem parse_json_or_html_duality_witness :
    parse_json_or_html respJson = ParseResult.json (Json.str "ok") ∧
    parse_json_or_html respHtml = ParseResult.html "Error" "<html/>" :=
  ⟨(parse_json_or_html_duality respJson).1 (Json.str "ok") rfl,
   (parse_json_or_html_duality respHtml).2 "Expecting value" rfl⟩

/-- Claim C5: the built payload's `type` field is the maximum of the numeric
codes of the event's distinct recognized detection types — every recognized
code is bounded by it, it is itself one of the recognized codes when any
exists — and it equals 1 when no type is recognized (empty `detections`). -/
theorem accumulate_event_type_severity (cv : Cv2)
    (fw : String → Except String Unit) (now : String) (loc : Int)
    (frame : Frame) (dts : List String) (queue q' : List Payload)
    (h : accumulate_event cv fw now loc frame dts queue = (Except.ok (), q')) :
    ∃ p, q' = queue ++ [p] ∧
      (∀ s ∈ dts, ∀ c, detection_types_mapping_dict s = some c → c ≤ p.type) ∧
      ((∃ s ∈ dts, ∃ c, detection_types_mapping_dict s = some c) →
        ∃ s ∈ dts, detection_types_mapping_dict s = some p.type) ∧
      ((∀ s ∈ dts, detection_types_mapping_dict s = none) → p.type = 1) := by
  rcases accumulate_event_ok h with ⟨img, hok, hq⟩
  refine ⟨built_payload now loc dts img, hq, ?_, ?_, ?_⟩
  · intro s hs c hc
    have he : entry_of s = some ⟨c, details_of s⟩ := by simp [entry_of, hc]
    have hmem : (⟨c, details_of s⟩ : Detection) ∈ (set_of_list dts).filterMap entry_of :=
      List.mem_filterMap.mpr ⟨s, mem_set_of_list.mpr hs, he⟩
    have hcm : c ∈ ((set_of_list dts).filterMap entry_of).map Detection.type :=
      List.mem_map.mpr ⟨⟨c, details_of s⟩, hmem, rfl⟩
    exact le_max_default hcm 1
  · rintro ⟨s, hs, c, hc⟩
    have he : entry_of s = some ⟨c, details_of s⟩ := by simp [entry_of, hc]
    have hmem : (⟨c, details_of s⟩ : Detection) ∈ (set_of_list dts).filterMap entry_of :=
      List.mem_filterMap.mpr ⟨s, mem_set_of_list.mpr hs, he⟩
    have hcm : c ∈ ((set_of_list dts).filterMap entry_of).map Detection.type :=
      List.mem_map.mpr ⟨⟨c, details_of s⟩, hmem, rfl⟩
    have hne : ((set_of_list dts).filterMap entry_of).map Detection.type ≠ [] :=
      List.ne_nil_of_mem hcm
    have hmax := max_default_mem hne 1
    rcases List.mem_map.mp hmax with ⟨d, hdL, hdt⟩
    rcases List.mem_filterMap.mp hdL with ⟨s', hs', he'⟩
    have hm' := (entry_of_eq_some.mp he').1
    rw [hdt] at hm'
    exact ⟨s', mem_set_of_list.mp hs', hm'⟩
  · intro hall
    have hnil : (set_of_list dts).filterMap entry_of = [] := by
      rw [List.filterMap_eq_nil_iff]
      intro s hs
      simp [entry_of, hall s (mem_set_of_list.mp hs)]
    show max_default 1 (((set_of_list dts).filterMap entry_of).map Detection.type) = 1
    rw [hnil]
    rfl

/-- Witness for C5: labels with codes {0, 2} give `type = 2` (the bound, the
membership, and — vacuously here — the default clause are all instantiated);
the payload on the queue is the expected one with `type = 2`. -/
theorem accumulate_event_type_severity_witness :
    ∃ p, [pC5] = [] ++ [p] ∧
      (∀ s ∈ ["No_Gloves", "No_Helmet"], ∀ c,
        detection_types_mapping_dict s = some c → c ≤ p.type) ∧
      ((∃ s ∈ ["No_Gloves", "No_Helmet"], ∃ c,
          detection_types_mapping_dict s = some c) →
        ∃ s ∈ ["No_Gloves", "No_Helmet"],
          detection_types_mapping_dict s = some p.type) ∧
      ((∀ s ∈ ["No_Gloves", "No_Helmet"],
          detection_types_mapping_dict s = none) → p.type = 1) :=
  accumulate_event_type_severity goodCv okWrite "d" 7 [0]
    ["No_Gloves", "No_Helmet"] [] [pC5] rfl

/-- Claim C6: `location_id = 0` is normalized to 1 in the built payload, and
any other value is preserved unchanged. -/
theorem accumulate_event_location_normalization (cv : Cv2)
    (fw : String → Except String Unit) (now : String) (loc : Int)
    (frame : Frame) (dts : List String) (queue q' : List Payload)
    (h : accumulate_event cv fw now loc frame dts queue = (Except.ok (), q')) :
    ∃ p, q' = queue ++ [p] ∧
      (loc = 0 → p.location_id = 1) ∧ (loc ≠ 0 → p.location_id = loc) := by
  rcases accumulate_event_ok h with ⟨img, hok, hq⟩
  refine ⟨built_payload now loc dts img, hq, ?_, ?_⟩
  · intro h0
    simp [built_payload, h0]
  · intro h0
    simp [built_payload, h0]

/-- Witness for C6: location 0 comes out as 1, location 7 is preserved. -/
theorem accumulate_event_location_normalization_witness :
    (∃ p, [pLoc0] = [] ++ [p] ∧
      ((0 : Int) = 0 → p.location_id = 1) ∧ ((0 : Int) ≠ 0 → p.location_id = 0)) ∧
    (∃ p, [pC5] = [] ++ [p] ∧
      ((7 : Int) = 0 → p.location_id = 1) ∧ ((7 : Int) ≠ 0 → p.location_id = 7)) :=
  ⟨accumulate_event_location_normalization goodCv okWrite "d" 0 [0] [] [] [pLoc0] rfl,
   accumulate_event_location_normalization goodCv okWrite "d" 7 [0]
     ["No_Gloves", "No_Helmet"] [] [pC5] rfl⟩

/-- Claim C7: the built `detections` list has exactly one entry per distinct
recognized label — duplicates collapse, the entry carries the mapped code and
the lowercased label with underscores replaced by spaces — every entry comes
from some recognized input label, and the labels (in particular unknown ones)
can never make construction fail: the outcome is independent of the label
list. -/
theorem accumulate_event_detections_spec (cv : Cv2)
    (fw : String → Except String Unit) (now : String) (loc : Int)
    (frame : Frame) (dts : List String) (queue q' : List Payload)
    (h : accumulate_event cv fw now loc frame dts queue = (Except.ok (), q')) :
    ∃ p, q' = queue ++ [p] ∧
      (∀ s ∈ dts, ∀ c, detection_types_mapping_dict s = some c →
        p.detections.count ⟨c, details_of s⟩ = 1) ∧
      (∀ d ∈ p.detections, ∃ s ∈ dts,
        detection_types_mapping_dict s = some d.type ∧ d.details = details_of s) ∧
      (∀ dts2, (accumulate_event cv fw now loc frame dts2 queue).1 = Except.ok ()) := by
  rcases accumulate_event_ok h with ⟨img, hok, hq⟩
  refine ⟨built_payload now loc dts img, hq, ?_, ?_, ?_⟩
  · intro s hs c hc
    have he : entry_of s = some ⟨c, details_of s⟩ := by simp [entry_of, hc]
    refine count_filterMap_eq_one entry_of (set_of_list dts) (nodup_set_of_list dts)
      s ⟨c, details_of s⟩ (mem_set_of_list.mpr hs) he ?_
    intro x hx hxe
    have hmx := (entry_of_eq_some.mp hxe).1
    rcases mapping_eq_some.mp hmx with ⟨hx1, hc1⟩ | ⟨hx1, hc1⟩ | ⟨hx1, hc1⟩ <;>
      rcases mapping_eq_some.mp hc with ⟨hs1, hc2⟩ | ⟨hs1, hc2⟩ | ⟨hs1, hc2⟩ <;>
      simp_all
  · intro d hd
    rcases List.mem_filterMap.mp hd with ⟨s, hs, he⟩
    rcases entry_of_eq_some.mp he with ⟨hm, hdet⟩
    exact ⟨s, mem_set_of_list.mp hs, hm, hdet⟩
  · intro dts2
    rw [accumulate_event_eq, hok]

/-- Witness for C7: with `["No_Helmet", "No_Helmet", "Unknown_Thing"]` the
duplicate collapses to a single `{2, "no helmet"}` entry, the unknown label
contributes nothing and does not make construction fail. -/
theorem accumulate_event_detections_spec_witness :
    ∃ p, [pC7] = [] ++ [p] ∧
      (∀ s ∈ ["No_Helmet", "No_Helmet", "Unknown_Thing"], ∀ c,
        detection_types_mapping_dict s = some c →
          p.detections.count ⟨c, details_of s⟩ = 1) ∧
      (∀ d ∈ p.detections, ∃ s ∈ ["No_Helmet", "No_Helmet", "Unknown_Thing"],
        detection_types_mapping_dict s = some d.type ∧ d.details = details_of s) ∧
      (∀ dts2, (accumulate_event goodCv okWrite "d" 7 [0] dts2 []).1 = Except.ok ()) :=
  accumulate_event_detections_spec goodCv okWrite "d" 7 [0]
    ["No_Helmet", "No_Helmet", "Unknown_Thing"] [] [pC7] rfl

/-- Claim C9: every successfully built payload carries only severity codes
from {0, 1, 2}: the `type` field and the `type` of every `detections` entry
come from the fixed three-entry mapping or the empty-case default 1. -/
theorem accumulate_event_codes_in_range (cv : Cv2)
    (fw : String → Except String Unit) (now : String) (loc : Int)
    (frame : Frame) (dts : List String) (queue q' : List Payload)
    (h : accumulate_event cv fw now loc frame dts queue = (Except.ok (), q')) :
    ∃ p, q' = queue ++ [p] ∧
      (p.type = 0 ∨ p.type = 1 ∨ p.type = 2) ∧
      ∀ d ∈ p.detections, d.type = 0 ∨ d.type = 1 ∨ d.type = 2 := by
  rcases accumulate_event_ok h with ⟨img, hok, hq⟩
  have hcodes : ∀ t ∈ ((set_of_list dts).filterMap entry_of).map Detection.type,
      t = 0 ∨ t = 1 ∨ t = 2 := by
    intro t ht
    rcases List.mem_map.mp ht with ⟨d, hd, rfl⟩
    rcases List.mem_filterMap.mp hd with ⟨s, hs, he⟩
    have hm := (entry_of_eq_some.mp he).1
    rcases mapping_eq_some.mp hm with ⟨_, hc⟩ | ⟨_, hc⟩ | ⟨_, hc⟩
    · exact Or.inl hc
    · exact Or.inr (Or.inl hc)
    · exact Or.inr (Or.inr hc)
  refine ⟨built_payload now loc dts img, hq, ?_, ?_⟩
  · show max_default 1 (((set_of_list dts).filterMap entry_of).map Detection.type) = 0 ∨
      max_default 1 (((set_of_list dts).filterMap entry_of).map Detection.type) = 1 ∨
      max_default 1 (((set_of_list dts).filterMap entry_of).map Detection.type) = 2
    rcases max_default_eq_or_mem 1
        (((set_of_list dts).filterMap entry_of).map Detection.type) with heq | hmem
    · rw [heq]
      exact Or.inr (Or.inl rfl)
    · exact hcodes _ hmem
  · intro d hd
    exact hcodes d.type (List.mem_map.mpr ⟨d, hd, rfl⟩)

/-- Witness for C9: the payload built from label `No_Sleeves` has `type = 1`
and its single detection entry carries code 1. -/
theorem accumulate_event_codes_in_range_witness :
    ∃ p, [pC9] = [] ++ [p] ∧
      (p.type = 0 ∨ p.type = 1 ∨ p.type = 2) ∧
      ∀ d ∈ p.detections, d.type = 0 ∨ d.type = 1 ∨ d.type = 2 :=
  accumulate_event_codes_in_range goodCv okWrite "d" 2 [0] ["No_Sleeves"] [] [pC9] rfl

/-- Claim C10: no range validation is performed on `location_id` beyond the
zero check: a negative `location_id` flows into the built payload
unchanged. -/
theorem accumulate_event_negative_location (cv : Cv2)
    (fw : String → Except String Unit) (now : String) (loc : Int)
    (frame : Frame) (dts : List String) (queue q' : List Payload)
    (hneg : loc < 0)
    (h : accumulate_event cv fw now loc frame dts queue = (Except.ok (), q')) :
    ∃ p, q' = queue ++ [p] ∧ p.location_id = loc := by
  rcases accumulate_event_ok h with ⟨img, hok, hq⟩
  refine ⟨built_payload now loc dts img, hq, ?_⟩
  have h0 : loc ≠ 0 := by omega
  simp [built_payload, h0]

/-- Witness for C10: location -5 is preserved as -5 in the built payload. -/
theorem accumulate_event_negative_location_witness :
    ∃ p, [pNeg] = [] ++ [p] ∧ p.location_id = -5 :=
  accumulate_event_negative_location goodCv okWrite "d" (-5) [0] [] [] [pNeg]
    (by decide) rfl

end Dashboard
